import Mathlib

/-!
Verification of the credit-spread engine in `src/src/lib.rs`.

The source is a Rust/wasm module exposing two operations, `bear_call_spread`
and `bull_put_spread`.  Each decodes an option chain (a list of `Instrument`
records), filters out-of-the-money strikes with usable market data, sorts them
by strike (ascending for calls, descending for puts) with a stable sort,
enumerates all ordered pairs (each element with every later element), scores
each pair into a `CreditSpread`, then optionally sorts by breakeven percentage
descending and optionally retains only spreads with `max_loss <= 3 * max_profit`.

Embedding choices:
* `f64` prices are modelled as exact rationals `ℚ`; `f64::ceil`/`floor` become
  `Int.ceil`/`Int.floor` cast back to `ℚ`.
* Rust `Option<T>` becomes `Option`; `and_then` is `Option.bind`, `unwrap_or`
  is `Option.getD`, `map_or` is a `match`.
* `Vec::sort_by` is a stable sort; the comparators compare rationals via
  `partial_cmp` with an `unwrap_or(Equal)` fallback that never fires on `ℚ`,
  so each `sort_by` is modelled by the stable `List.insertionSort` over the
  corresponding total relation.
* JSON decoding of the chain (`serde_json::from_str`, boundary glue per the
  spec) is modelled by an `Option (List Instrument)` input; the decode-failure
  branch returns the distinguished error value.
-/

/-- Market snapshot of one option leg (source struct `MarketData`, lines 6-17).
Quantities that never reach arithmetic (`volume`, `oi`, ...) are kept as
`Option ℕ`; prices are `Option ℚ`. -/
structure MarketData where
  ltp : Option ℚ
  volume : Option ℕ
  oi : Option ℕ
  close_price : Option ℚ
  bid_price : Option ℚ
  bid_qty : Option ℕ
  ask_price : Option ℚ
  ask_qty : Option ℕ
  prev_oi : Option ℕ
deriving DecidableEq

/-- Greeks snapshot (source struct `OptionGreeks`, lines 19-26); carried but
never read by the scoring logic. -/
structure OptionGreeks where
  vega : Option ℚ
  theta : Option ℚ
  gamma : Option ℚ
  delta : Option ℚ
  iv : Option ℚ
deriving DecidableEq

/-- One side (call or put) of a strike (source struct `OptionData`, lines 28-33). -/
structure OptionData where
  instrument_key : String
  market_data : Option MarketData
  option_greeks : Option OptionGreeks
deriving DecidableEq

/-- One strike of the option chain (source struct `Instrument`, lines 35-43). -/
structure Instrument where
  expiry : String
  strike_price : ℚ
  underlying_key : String
  underlying_spot_price : ℚ
  call_options : Option OptionData
  put_options : Option OptionData
deriving DecidableEq

/-- Caller flags (source struct `BearCallSpreadParams`, lines 45-51, minus the
raw `optionchain` string, which is modelled as the separate decoded input).
The source field `risk_reward_ratio` is named `risk_reward` here. -/
structure SpreadParams where
  bid_ask_spread : Bool
  risk_reward : Bool
  breakeven_percentage_sort : Bool
deriving DecidableEq

/-- Output record (source struct `CreditSpread`, lines 53-65). -/
structure CreditSpread where
  sell_strike : ℚ
  buy_strike : ℚ
  spread : ℚ
  net_credit : ℚ
  max_profit : ℚ
  max_loss : ℚ
  breakeven : ℚ
  breakeven_percentage : ℚ
  type_ : String
deriving DecidableEq

/-- Lot-size constant `NIFTY_LOTSIZE` (source lines 69 and 192). -/
def NIFTY_LOTSIZE : ℚ := 25

/-- Rational model of `f64::ceil`: round up to an integer. -/
def qceil (q : ℚ) : ℚ := (⌈q⌉ : ℤ)

/-- Rational model of `f64::floor`: round down to an integer. -/
def qfloor (q : ℚ) : ℚ := (⌊q⌋ : ℤ)

/-- Call-side chain filter (source lines 82-100): strictly OTM
(`strike_price > underlying_spot_price`), a call leg with a market snapshot
whose `ltp` is present, and, only when `bid_ask_spread` is set, both quotes
present with `|ask - bid| <= 2.0`. -/
def callKeep (params : SpreadParams) (instrument : Instrument) : Bool :=
  let is_otm := decide (instrument.strike_price > instrument.underlying_spot_price)
  let has_valid_market_data :=
    match instrument.call_options.bind (fun data => data.market_data) with
    | none => false
    | some market_data =>
      let ltp_is_some := market_data.ltp.isSome
      let bid_ask_diff_ok :=
        match market_data.bid_price, market_data.ask_price with
        | some bid, some ask => decide (|ask - bid| ≤ 2)
        | _, _ => false
      ltp_is_some && (!params.bid_ask_spread || bid_ask_diff_ok)
  is_otm && has_valid_market_data

/-- Put-side chain filter (source lines 205-223): strictly OTM
(`strike_price < underlying_spot_price`), reading the put leg. -/
def putKeep (params : SpreadParams) (instrument : Instrument) : Bool :=
  let is_otm := decide (instrument.strike_price < instrument.underlying_spot_price)
  let has_valid_market_data :=
    match instrument.put_options.bind (fun data => data.market_data) with
    | none => false
    | some market_data =>
      let ltp_is_some := market_data.ltp.isSome
      let bid_ask_diff_ok :=
        match market_data.bid_price, market_data.ask_price with
        | some bid, some ask => decide (|ask - bid| ≤ 2)
        | _, _ => false
      ltp_is_some && (!params.bid_ask_spread || bid_ask_diff_ok)
  is_otm && has_valid_market_data

/-- Ascending-strike comparator of the call-side `sort_by` (source lines
104-108); on `ℚ` the `partial_cmp ... unwrap_or(Equal)` comparator is the
total order on `strike_price`. -/
def strikeAsc (a b : Instrument) : Prop := a.strike_price ≤ b.strike_price

/-- Descending-strike comparator of the put-side `sort_by` (source lines
227-231). -/
def strikeDesc (a b : Instrument) : Prop := b.strike_price ≤ a.strike_price

/-- Descending-breakeven-percentage comparator of the optional result sort
(source lines 166-170 and 289-293). -/
def bpDesc (a b : CreditSpread) : Prop := b.breakeven_percentage ≤ a.breakeven_percentage

instance : DecidableRel strikeAsc :=
  fun a b => inferInstanceAs (Decidable (a.strike_price ≤ b.strike_price))

instance : DecidableRel strikeDesc :=
  fun a b => inferInstanceAs (Decidable (b.strike_price ≤ a.strike_price))

instance : DecidableRel bpDesc :=
  fun a b => inferInstanceAs (Decidable (b.breakeven_percentage ≤ a.breakeven_percentage))

instance : IsTotal Instrument strikeAsc := ⟨fun a b => le_total a.strike_price b.strike_price⟩

instance : IsTrans Instrument strikeAsc := ⟨fun _ _ _ h h2 => le_trans h h2⟩

instance : IsTotal Instrument strikeDesc := ⟨fun a b => le_total b.strike_price a.strike_price⟩

instance : IsTrans Instrument strikeDesc := ⟨fun _ _ _ h h2 => le_trans h2 h⟩

instance : IsTotal CreditSpread bpDesc :=
  ⟨fun a b => le_total b.breakeven_percentage a.breakeven_percentage⟩

instance : IsTrans CreditSpread bpDesc := ⟨fun _ _ _ h h2 => le_trans h2 h⟩

/-- Pair enumeration shared by both operations (source lines 110-118 and
233-241): each element is paired with every later element of the list, in
order. -/
def pairsOf {α : Type} : List α → List (α × α)
  | [] => []
  | x :: xs => (xs.map (fun y => (x, y))) ++ pairsOf xs

/-- Last traded price of a leg with the `unwrap_or(0.0)` substitution of
source lines 123-128. -/
def ltpOf (leg : Option OptionData) : ℚ :=
  ((leg.bind (fun data => data.market_data)).bind (fun market_data => market_data.ltp)).getD 0

/-- Scoring of one (lower, higher) call pair (source lines 122-161); the sell
leg is `lower`, the buy leg is `higher`. -/
def scoreCall (lower higher : Instrument) : CreditSpread :=
  let lower_ltp := ltpOf lower.call_options
  let higher_ltp := ltpOf higher.call_options
  let spread := (higher.strike_price - lower.strike_price) * NIFTY_LOTSIZE
  let net_credit := (lower_ltp - higher_ltp) * NIFTY_LOTSIZE
  let max_profit := qceil net_credit
  let max_loss := qceil (spread - net_credit)
  let breakeven := qceil (lower.strike_price + net_credit / NIFTY_LOTSIZE)
  let breakeven_percentage :=
    |breakeven - lower.underlying_spot_price| / lower.underlying_spot_price * 100
  let breakeven_percentage_trimmed := qfloor (breakeven_percentage * 100) / 100
  { sell_strike := lower.strike_price
    buy_strike := higher.strike_price
    spread := spread
    net_credit := net_credit
    max_profit := max_profit
    max_loss := max_loss
    breakeven := breakeven
    breakeven_percentage := breakeven_percentage_trimmed
    type_ := "CE" }

/-- Scoring of one (higher, lower) put pair (source lines 245-284); the sell
leg is `higher`, the buy leg is `lower`, and the breakeven and its percentage
are computed from the lower (buy) leg. -/
def scorePut (higher lower : Instrument) : CreditSpread :=
  let higher_ltp := ltpOf higher.put_options
  let lower_ltp := ltpOf lower.put_options
  let spread := (higher.strike_price - lower.strike_price) * NIFTY_LOTSIZE
  let net_credit := (higher_ltp - lower_ltp) * NIFTY_LOTSIZE
  let max_profit := qceil net_credit
  let max_loss := qceil (spread - net_credit)
  let breakeven := qceil (lower.strike_price - net_credit / NIFTY_LOTSIZE)
  let breakeven_percentage :=
    |breakeven - lower.underlying_spot_price| / lower.underlying_spot_price * 100
  let breakeven_percentage_trimmed := qfloor (breakeven_percentage * 100) / 100
  { sell_strike := higher.strike_price
    buy_strike := lower.strike_price
    spread := spread
    net_credit := net_credit
    max_profit := max_profit
    max_loss := max_loss
    breakeven := breakeven
    breakeven_percentage := breakeven_percentage_trimmed
    type_ := "PE" }

/-- Risk/reward retention predicate (source lines 174 and 297). -/
def rrKeep (s : CreditSpread) : Bool := decide (s.max_loss ≤ 3 * s.max_profit)

/-- Filtered and ascending-sorted call-side strikes (source lines 80-108). -/
def callSorted (instruments : List Instrument) (params : SpreadParams) : List Instrument :=
  List.insertionSort strikeAsc (instruments.filter (callKeep params))

/-- Filtered and descending-sorted put-side strikes (source lines 203-231). -/
def putSorted (instruments : List Instrument) (params : SpreadParams) : List Instrument :=
  List.insertionSort strikeDesc (instruments.filter (putKeep params))

/-- Scored call spreads in generation order (source lines 110-162): pair
enumeration then scoring.  The source builds this with `filter_map` whose
closure always returns `Some`, hence a plain `map` here. -/
def callScored (instruments : List Instrument) (params : SpreadParams) : List CreditSpread :=
  (pairsOf (callSorted instruments params)).map (fun p => scoreCall p.1 p.2)

/-- Scored put spreads in generation order (source lines 233-285). -/
def putScored (instruments : List Instrument) (params : SpreadParams) : List CreditSpread :=
  (pairsOf (putSorted instruments params)).map (fun p => scorePut p.1 p.2)

/-- Full bear-call pipeline on a decoded chain (source lines 80-178): scoring,
then the optional stable descending sort on `breakeven_percentage` (lines
165-171), then the optional risk/reward retention (lines 173-175). -/
def bearCallSpreads (instruments : List Instrument) (params : SpreadParams) :
    List CreditSpread :=
  let credit_spreads := callScored instruments params
  let credit_spreads_sorted :=
    if params.breakeven_percentage_sort then List.insertionSort bpDesc credit_spreads
    else credit_spreads
  if params.risk_reward then credit_spreads_sorted.filter rrKeep
  else credit_spreads_sorted

/-- Full bull-put pipeline on a decoded chain (source lines 203-301). -/
def bullPutSpreads (instruments : List Instrument) (params : SpreadParams) :
    List CreditSpread :=
  let credit_spreads := putScored instruments params
  let credit_spreads_sorted :=
    if params.breakeven_percentage_sort then List.insertionSort bpDesc credit_spreads
    else credit_spreads
  if params.risk_reward then credit_spreads_sorted.filter rrKeep
  else credit_spreads_sorted

/-- The operation `bear_call_spread` at the spec interface (source lines
68-188): the chain decode result is the `Option` input; decode failure (source
lines 180-186) yields the distinguished error and no spreads. -/
def bear_call_spread (decoded : Option (List Instrument)) (params : SpreadParams) :
    Except String (List CreditSpread) :=
  match decoded with
  | some instruments => Except.ok (bearCallSpreads instruments params)
  | none => Except.error "Failed to parse JSON"

/-- The operation `bull_put_spread` at the spec interface (source lines
190-311). -/
def bull_put_spread (decoded : Option (List Instrument)) (params : SpreadParams) :
    Except String (List CreditSpread) :=
  match decoded with
  | some instruments => Except.ok (bullPutSpreads instruments params)
  | none => Except.error "Failed to parse JSON"

/-- Market snapshot with only the three scoring-relevant prices set. -/
def mkMarket (ltp bid ask : Option ℚ) : MarketData :=
  ⟨ltp, none, none, none, bid, none, ask, none, none⟩

/-- Chain entry carrying only a call leg. -/
def mkCallEntry (strike spot : ℚ) (market : MarketData) : Instrument :=
  ⟨"2024-01-25", strike, "NIFTY", spot, some ⟨"CALL_KEY", some market, none⟩, none⟩

/-- Chain entry carrying only a put leg. -/
def mkPutEntry (strike spot : ℚ) (market : MarketData) : Instrument :=
  ⟨"2024-01-25", strike, "NIFTY", spot, none, some ⟨"PUT_KEY", some market, none⟩⟩

/-- All three flags off. -/
def flagsNone : SpreadParams := ⟨false, false, false⟩

/-- The end-to-end example chain of the spec: spot 100, call strikes 105
(LTP 3.0, bid 2.9, ask 3.1) and 110 (LTP 1.0, bid 0.9, ask 1.1). -/
def chainC1 : List Instrument :=
  [mkCallEntry 105 100 (mkMarket (some 3) (some (29/10)) (some (31/10))),
   mkCallEntry 110 100 (mkMarket (some 1) (some (9/10)) (some (11/10)))]

/-- C1: on the spec's example chain with all flags off, `bear_call_spread`
returns exactly one spread: sellStrike 105, buyStrike 110, spreadWidth 125,
netCredit 50, maxProfit 50, maxLoss 75, breakeven 107, and
breakevenDistancePercent 7. -/
theorem C1_bear_call_example :
    bearCallSpreads chainC1 flagsNone = [⟨105, 110, 125, 50, 50, 75, 107, 7, "CE"⟩] ∧
      bear_call_spread (some chainC1) flagsNone =
        Except.ok (bearCallSpreads chainC1 flagsNone) :=
  ⟨by norm_num [bearCallSpreads, callScored, callSorted, callKeep, scoreCall, ltpOf, pairsOf,
      mkCallEntry, mkMarket, chainC1, flagsNone, NIFTY_LOTSIZE, qceil, qfloor, strikeAsc,
      List.insertionSort, List.orderedInsert, List.filter],
    rfl⟩

/-- Both components of a generated pair are members of the generating list. -/
theorem mem_pairsOf {α : Type} {p : α × α} :
    ∀ {l : List α}, p ∈ pairsOf l → p.1 ∈ l ∧ p.2 ∈ l := by
  intro l
  induction l with
  | nil => intro h; simp [pairsOf] at h
  | cons x xs ih =>
    intro h
    simp only [pairsOf, List.mem_append, List.mem_map] at h
    rcases h with ⟨y, hy, hpy⟩ | h
    · cases hpy
      exact ⟨List.mem_cons_self x xs, List.mem_cons_of_mem x hy⟩
    · rcases ih h with ⟨h1, h2⟩
      exact ⟨List.mem_cons_of_mem x h1, List.mem_cons_of_mem x h2⟩

/-- Every generated pair is drawn in list order, so a pairwise relation on the
list holds across each pair. -/
theorem pairsOf_rel {α : Type} {R : α → α → Prop} :
    ∀ {l : List α}, l.Pairwise R → ∀ p ∈ pairsOf l, R p.1 p.2 := by
  intro l
  induction l with
  | nil => intro _ p hp; simp [pairsOf] at hp
  | cons x xs ih =>
    intro hl p hp
    rcases List.pairwise_cons.mp hl with ⟨hx, hxs⟩
    simp only [pairsOf, List.mem_append, List.mem_map] at hp
    rcases hp with ⟨y, hy, hpy⟩ | hp
    · cases hpy
      exact hx y hy
    · exact ih hxs p hp

/-- Generation order of `pairsOf`: a pairwise relation on the input list
induces, on the pair list, either a step in the first component or an equal
first component with a step in the second. -/
theorem pairsOf_pairwise {α : Type} {R : α → α → Prop} :
    ∀ {l : List α}, l.Pairwise R →
      (pairsOf l).Pairwise (fun p q => R p.1 q.1 ∨ (p.1 = q.1 ∧ R p.2 q.2)) := by
  intro l
  induction l with
  | nil => intro _; simp [pairsOf]
  | cons x xs ih =>
    intro hl
    rcases List.pairwise_cons.mp hl with ⟨hx, hxs⟩
    simp only [pairsOf]
    refine List.pairwise_append.mpr ⟨?_, ih hxs, ?_⟩
    · rw [List.pairwise_map]
      exact hxs.imp (fun h => Or.inr ⟨rfl, h⟩)
    · intro p hp q hq
      rcases List.mem_map.mp hp with ⟨y, _, hpy⟩
      cases hpy
      exact Or.inl (hx q.1 (mem_pairsOf hq).1)

/-- Membership in the final bear-call output implies membership in the scored
list (the optional sort permutes and the optional retention only removes). -/
theorem mem_callScored_of_mem_bear {instruments : List Instrument} {params : SpreadParams}
    {s : CreditSpread} (h : s ∈ bearCallSpreads instruments params) :
    s ∈ callScored instruments params := by
  unfold bearCallSpreads at h
  by_cases hrr : params.risk_reward = true
  all_goals by_cases hsrt : params.breakeven_percentage_sort = true
  all_goals simp only [hrr, hsrt, if_pos, if_neg, if_true, if_false,
    Bool.not_eq_true] at h
  · exact (List.mem_insertionSort bpDesc).mp (List.mem_filter.mp h).1
  · exact (List.mem_filter.mp h).1
  · exact (List.mem_insertionSort bpDesc).mp h
  · exact h

/-- Membership in the final bull-put output implies membership in the scored
list. -/
theorem mem_putScored_of_mem_bull {instruments : List Instrument} {params : SpreadParams}
    {s : CreditSpread} (h : s ∈ bullPutSpreads instruments params) :
    s ∈ putScored instruments params := by
  unfold bullPutSpreads at h
  by_cases hrr : params.risk_reward = true
  all_goals by_cases hsrt : params.breakeven_percentage_sort = true
  all_goals simp only [hrr, hsrt, if_pos, if_neg, if_true, if_false,
    Bool.not_eq_true] at h
  · exact (List.mem_insertionSort bpDesc).mp (List.mem_filter.mp h).1
  · exact (List.mem_filter.mp h).1
  · exact (List.mem_insertionSort bpDesc).mp h
  · exact h

/-- Evaluation rule for the ceiling of a non-integer rational literal. -/
theorem ceil_cast_eq (q : ℚ) (z : ℤ) (h1 : (z : ℚ) - 1 < q) (h2 : q ≤ (z : ℚ)) :
    ((⌈q⌉ : ℤ) : ℚ) = (z : ℚ) := by
  rw [Int.ceil_eq_iff.mpr ⟨h1, h2⟩]

/-- Evaluation rule for the floor of a non-integer rational literal. -/
theorem floor_cast_eq (q : ℚ) (z : ℤ) (h1 : (z : ℚ) ≤ q) (h2 : q < (z : ℚ) + 1) :
    ((⌊q⌋ : ℤ) : ℚ) = (z : ℚ) := by
  rw [Int.floor_eq_iff.mpr ⟨h1, h2⟩]

/-- Ceiling dominates its argument, stated on `qceil`. -/
theorem le_qceil (q : ℚ) : q ≤ qceil q := Int.le_ceil q

/-- Scored call spreads satisfy `spread ≤ max_profit + max_loss`. -/
theorem scoreCall_sum_ge (a b : Instrument) :
    (scoreCall a b).spread ≤ (scoreCall a b).max_profit + (scoreCall a b).max_loss := by
  have h1 : (scoreCall a b).max_profit = qceil ((scoreCall a b).net_credit) := rfl
  have h2 : (scoreCall a b).max_loss =
      qceil ((scoreCall a b).spread - (scoreCall a b).net_credit) := rfl
  rw [h1, h2]
  have g1 := le_qceil ((scoreCall a b).net_credit)
  have g2 := le_qceil ((scoreCall a b).spread - (scoreCall a b).net_credit)
  linarith

/-- Scored put spreads satisfy `spread ≤ max_profit + max_loss`. -/
theorem scorePut_sum_ge (a b : Instrument) :
    (scorePut a b).spread ≤ (scorePut a b).max_profit + (scorePut a b).max_loss := by
  have h1 : (scorePut a b).max_profit = qceil ((scorePut a b).net_credit) := rfl
  have h2 : (scorePut a b).max_loss =
      qceil ((scorePut a b).spread - (scorePut a b).net_credit) := rfl
  rw [h1, h2]
  have g1 := le_qceil ((scorePut a b).net_credit)
  have g2 := le_qceil ((scorePut a b).spread - (scorePut a b).net_credit)
  linarith

/-- Chain exhibiting a non-integer net credit: spot 100, call strikes 105
(LTP 3.1) and 110 (LTP 1.0), quotes absent. -/
def chainC2 : List Instrument :=
  [mkCallEntry 105 100 (mkMarket (some (31/10)) none none),
   mkCallEntry 110 100 (mkMarket (some 1) none none)]

/-- C2 (counterexample): with net credit 52.5, the emitted spread has
maxProfit 53 and maxLoss 73, and 53 + 73 = 126 exceeds the spread width 125,
so rounded maxProfit + maxLoss does not equal spreadWidth. -/
theorem C2_counterexample :
    ¬ ∀ s ∈ bearCallSpreads chainC2 flagsNone, s.max_profit + s.max_loss = s.spread := by
  intro hall
  have hmem : (⟨105, 110, 125, 105/2, 53, 73, 108, 8, "CE"⟩ : CreditSpread) ∈
      bearCallSpreads chainC2 flagsNone := by
    norm_num [bearCallSpreads, callScored, callSorted, callKeep, scoreCall, ltpOf, pairsOf,
      mkCallEntry, mkMarket, chainC2, flagsNone, NIFTY_LOTSIZE, qceil, qfloor, strikeAsc,
      List.insertionSort, List.orderedInsert, List.filter,
      ceil_cast_eq (105/2) 53 (by norm_num) (by norm_num),
      ceil_cast_eq (145/2) 73 (by norm_num) (by norm_num),
      ceil_cast_eq (1071/10) 108 (by norm_num) (by norm_num)]
  have hbad := hall _ hmem
  norm_num at hbad

/-- C2 (amended): for every spread emitted by either operation, the rounded
values satisfy `maxProfit + maxLoss ≥ spreadWidth`; the exact identity holds
only before the two independent ceilings. -/
theorem C2_sum_ge (instruments : List Instrument) (params : SpreadParams) :
    (∀ s ∈ bearCallSpreads instruments params, s.spread ≤ s.max_profit + s.max_loss) ∧
      (∀ s ∈ bullPutSpreads instruments params, s.spread ≤ s.max_profit + s.max_loss) := by
  constructor
  · intro s hs
    rcases List.mem_map.mp (mem_callScored_of_mem_bear hs) with ⟨p, _, hpe⟩
    cases hpe
    exact scoreCall_sum_ge p.1 p.2
  · intro s hs
    rcases List.mem_map.mp (mem_putScored_of_mem_bull hs) with ⟨p, _, hpe⟩
    cases hpe
    exact scorePut_sum_ge p.1 p.2

/-- Witness for C2 (amended) on the concrete example chain. -/
theorem C2_sum_ge_witness :
    ((⟨105, 110, 125, 50, 50, 75, 107, 7, "CE"⟩ : CreditSpread) ∈
        bearCallSpreads chainC1 flagsNone) ∧
      (⟨105, 110, 125, 50, 50, 75, 107, 7, "CE"⟩ : CreditSpread).spread ≤
        (⟨105, 110, 125, 50, 50, 75, 107, 7, "CE"⟩ : CreditSpread).max_profit +
          (⟨105, 110, 125, 50, 50, 75, 107, 7, "CE"⟩ : CreditSpread).max_loss := by
  have hmem : (⟨105, 110, 125, 50, 50, 75, 107, 7, "CE"⟩ : CreditSpread) ∈
      bearCallSpreads chainC1 flagsNone := by
    norm_num [bearCallSpreads, callScored, callSorted, callKeep, scoreCall, ltpOf, pairsOf,
      mkCallEntry, mkMarket, chainC1, flagsNone, NIFTY_LOTSIZE, qceil, qfloor, strikeAsc,
      List.insertionSort, List.orderedInsert, List.filter]
  exact ⟨hmem, (C2_sum_ge chainC1 flagsNone).1 _ hmem⟩

/-- Strikes in the call-side sorted stage are pairwise strictly ascending once
no two filtered entries share a strike price. -/
theorem callSorted_pairwise_lt {instruments : List Instrument} {params : SpreadParams}
    (h : ((instruments.filter (callKeep params)).map Instrument.strike_price).Nodup) :
    (callSorted instruments params).Pairwise
      (fun a b => a.strike_price < b.strike_price) := by
  have hperm : List.Perm (callSorted instruments params)
      (instruments.filter (callKeep params)) :=
    List.perm_insertionSort strikeAsc _
  have hflt : (instruments.filter (callKeep params)).Pairwise
      (fun a b => a.strike_price ≠ b.strike_price) := List.pairwise_map.mp h
  have hne : (callSorted instruments params).Pairwise
      (fun a b => a.strike_price ≠ b.strike_price) :=
    (hperm.pairwise_iff (fun hab => Ne.symm hab)).mpr hflt
  have hle : (callSorted instruments params).Pairwise strikeAsc :=
    List.sorted_insertionSort strikeAsc _
  exact hle.imp₂ (fun _ _ h1 h2 => lt_of_le_of_ne h1 h2) hne

/-- Strikes in the put-side sorted stage are pairwise strictly descending once
no two filtered entries share a strike price. -/
theorem putSorted_pairwise_gt {instruments : List Instrument} {params : SpreadParams}
    (h : ((instruments.filter (putKeep params)).map Instrument.strike_price).Nodup) :
    (putSorted instruments params).Pairwise
      (fun a b => b.strike_price < a.strike_price) := by
  have hperm : List.Perm (putSorted instruments params)
      (instruments.filter (putKeep params)) :=
    List.perm_insertionSort strikeDesc _
  have hflt : (instruments.filter (putKeep params)).Pairwise
      (fun a b => a.strike_price ≠ b.strike_price) := List.pairwise_map.mp h
  have hne : (putSorted instruments params).Pairwise
      (fun a b => a.strike_price ≠ b.strike_price) :=
    (hperm.pairwise_iff (fun hab => Ne.symm hab)).mpr hflt
  have hle : (putSorted instruments params).Pairwise strikeDesc :=
    List.sorted_insertionSort strikeDesc _
  exact hle.imp₂ (fun _ _ h1 h2 => lt_of_le_of_ne h1 (Ne.symm h2)) hne

/-- Chain with a duplicated strike entry: two identical records at strike 105,
spot 100, each with a valid call leg. -/
def chainC3 : List Instrument :=
  [mkCallEntry 105 100 (mkMarket (some 3) none none),
   mkCallEntry 105 100 (mkMarket (some 3) none none)]

/-- C3 (counterexample): when the chain carries two entries with the same
strike, the generator pairs them with each other and emits a spread whose
sell strike equals its buy strike, so strict inequality fails. -/
theorem C3_counterexample :
    ¬ ∀ s ∈ bearCallSpreads chainC3 flagsNone, s.sell_strike < s.buy_strike := by
  intro hall
  have hmem : (⟨105, 105, 0, 0, 0, 0, 105, 5, "CE"⟩ : CreditSpread) ∈
      bearCallSpreads chainC3 flagsNone := by
    norm_num [bearCallSpreads, callScored, callSorted, callKeep, scoreCall, ltpOf, pairsOf,
      mkCallEntry, mkMarket, chainC3, flagsNone, NIFTY_LOTSIZE, qceil, qfloor, strikeAsc,
      List.insertionSort, List.orderedInsert, List.filter]
  have hbad := hall _ hmem
  norm_num at hbad

/-- C3 (amended): every emitted call spread has `sell_strike ≤ buy_strike` and
every emitted put spread has `buy_strike ≤ sell_strike`; both inequalities are
strict whenever the filtered entries have pairwise-distinct strike prices. -/
theorem C3_sell_nearer (instruments : List Instrument) (params : SpreadParams) :
    (∀ s ∈ bearCallSpreads instruments params, s.sell_strike ≤ s.buy_strike) ∧
      (∀ s ∈ bullPutSpreads instruments params, s.buy_strike ≤ s.sell_strike) ∧
      (((instruments.filter (callKeep params)).map Instrument.strike_price).Nodup →
        ∀ s ∈ bearCallSpreads instruments params, s.sell_strike < s.buy_strike) ∧
      (((instruments.filter (putKeep params)).map Instrument.strike_price).Nodup →
        ∀ s ∈ bullPutSpreads instruments params, s.buy_strike < s.sell_strike) := by
  refine ⟨?_, ?_, ?_, ?_⟩
  · intro s hs
    rcases List.mem_map.mp (mem_callScored_of_mem_bear hs) with ⟨p, hp, hpe⟩
    cases hpe
    exact pairsOf_rel (List.sorted_insertionSort strikeAsc _) p hp
  · intro s hs
    rcases List.mem_map.mp (mem_putScored_of_mem_bull hs) with ⟨p, hp, hpe⟩
    cases hpe
    exact pairsOf_rel (List.sorted_insertionSort strikeDesc _) p hp
  · intro hnd s hs
    rcases List.mem_map.mp (mem_callScored_of_mem_bear hs) with ⟨p, hp, hpe⟩
    cases hpe
    exact pairsOf_rel (callSorted_pairwise_lt hnd) p hp
  · intro hnd s hs
    rcases List.mem_map.mp (mem_putScored_of_mem_bull hs) with ⟨p, hp, hpe⟩
    cases hpe
    exact pairsOf_rel (putSorted_pairwise_gt hnd) p hp

/-- Witness for C3 (amended) on the concrete example chain, discharging the
distinct-strike hypothesis. -/
theorem C3_sell_nearer_witness :
    ((chainC1.filter (callKeep flagsNone)).map Instrument.strike_price).Nodup ∧
      ((⟨105, 110, 125, 50, 50, 75, 107, 7, "CE"⟩ : CreditSpread) ∈
        bearCallSpreads chainC1 flagsNone) ∧
      (⟨105, 110, 125, 50, 50, 75, 107, 7, "CE"⟩ : CreditSpread).sell_strike <
        (⟨105, 110, 125, 50, 50, 75, 107, 7, "CE"⟩ : CreditSpread).buy_strike := by
  have hnd : ((chainC1.filter (callKeep flagsNone)).map Instrument.strike_price).Nodup := by
    norm_num [callKeep, chainC1, mkCallEntry, mkMarket, flagsNone, List.filter]
  have hmem : (⟨105, 110, 125, 50, 50, 75, 107, 7, "CE"⟩ : CreditSpread) ∈
      bearCallSpreads chainC1 flagsNone := by
    norm_num [bearCallSpreads, callScored, callSorted, callKeep, scoreCall, ltpOf, pairsOf,
      mkCallEntry, mkMarket, chainC1, flagsNone, NIFTY_LOTSIZE, qceil, qfloor, strikeAsc,
      List.insertionSort, List.orderedInsert, List.filter]
  exact ⟨hnd, hmem, (C3_sell_nearer chainC1 flagsNone).2.2.1 hnd _ hmem⟩

/-- C4: the chain filters keep an entry iff it is strictly out-of-the-money
for the requested side, the corresponding leg exists with a market snapshot
whose last traded price is present, and, only when the bid/ask flag is set,
both quotes are present with `|ask - bid| ≤ 2`. -/
theorem C4_filter_iff (params : SpreadParams) (instrument : Instrument) :
    (callKeep params instrument = true ↔
      (instrument.underlying_spot_price < instrument.strike_price ∧
        ∃ md, instrument.call_options.bind (fun data => data.market_data) = some md ∧
          md.ltp.isSome = true ∧
          (params.bid_ask_spread = true →
            ∃ bid ask, md.bid_price = some bid ∧ md.ask_price = some ask ∧
              |ask - bid| ≤ 2))) ∧
    (putKeep params instrument = true ↔
      (instrument.strike_price < instrument.underlying_spot_price ∧
        ∃ md, instrument.put_options.bind (fun data => data.market_data) = some md ∧
          md.ltp.isSome = true ∧
          (params.bid_ask_spread = true →
            ∃ bid ask, md.bid_price = some bid ∧ md.ask_price = some ask ∧
              |ask - bid| ≤ 2))) := by
  constructor
  · unfold callKeep
    cases hmo : instrument.call_options.bind (fun data => data.market_data) with
    | none => simp [hmo]
    | some md =>
      cases hf : params.bid_ask_spread with
      | false => cases hb : md.bid_price <;> cases ha : md.ask_price <;>
          simp [hmo, hf, hb, ha]
      | true => cases hb : md.bid_price <;> cases ha : md.ask_price <;>
          simp [hmo, hf, hb, ha]
  · unfold putKeep
    cases hmo : instrument.put_options.bind (fun data => data.market_data) with
    | none => simp [hmo]
    | some md =>
      cases hf : params.bid_ask_spread with
      | false => cases hb : md.bid_price <;> cases ha : md.ask_price <;>
          simp [hmo, hf, hb, ha]
      | true => cases hb : md.bid_price <;> cases ha : md.ask_price <;>
          simp [hmo, hf, hb, ha]

/-- Witness for C4 at a concrete entry: with the bid/ask flag set, the 105
strike of the example chain passes the call filter. -/
theorem C4_filter_iff_witness :
    callKeep ⟨true, false, false⟩
      (mkCallEntry 105 100 (mkMarket (some 3) (some (29/10)) (some (31/10)))) = true := by
  refine (C4_filter_iff ⟨true, false, false⟩
      (mkCallEntry 105 100 (mkMarket (some 3) (some (29/10)) (some (31/10))))).1.mpr ?_
  refine ⟨by norm_num [mkCallEntry], ⟨mkMarket (some 3) (some (29/10)) (some (31/10)), rfl,
    rfl, ?_⟩⟩
  intro _
  exact ⟨29/10, 31/10, rfl, rfl, by norm_num [abs_le]⟩

/-- C5: scoring formulas.  The first block holds for every pair by unfolding;
the spread-width-as-absolute-difference forms additionally use that generated
pairs respect the sort order of their side. -/
theorem C5_scoring (instruments : List Instrument) (params : SpreadParams) :
    (∀ a b : Instrument,
      (scoreCall a b).net_credit = (ltpOf a.call_options - ltpOf b.call_options) * 25 ∧
      (scoreCall a b).max_profit = qceil ((scoreCall a b).net_credit) ∧
      (scoreCall a b).max_loss = qceil ((scoreCall a b).spread - (scoreCall a b).net_credit) ∧
      (scoreCall a b).breakeven =
        qceil ((scoreCall a b).sell_strike + (scoreCall a b).net_credit / 25) ∧
      (scorePut a b).net_credit = (ltpOf a.put_options - ltpOf b.put_options) * 25 ∧
      (scorePut a b).max_profit = qceil ((scorePut a b).net_credit) ∧
      (scorePut a b).max_loss = qceil ((scorePut a b).spread - (scorePut a b).net_credit) ∧
      (scorePut a b).breakeven =
        qceil ((scorePut a b).buy_strike - (scorePut a b).net_credit / 25)) ∧
    (∀ p ∈ pairsOf (callSorted instruments params),
      (scoreCall p.1 p.2).spread =
        |(scoreCall p.1 p.2).buy_strike - (scoreCall p.1 p.2).sell_strike| * 25) ∧
    (∀ p ∈ pairsOf (putSorted instruments params),
      (scorePut p.1 p.2).spread =
        |(scorePut p.1 p.2).buy_strike - (scorePut p.1 p.2).sell_strike| * 25) := by
  refine ⟨fun a b => ⟨rfl, rfl, rfl, rfl, rfl, rfl, rfl, rfl⟩, ?_, ?_⟩
  · intro p hp
    have hle : p.1.strike_price ≤ p.2.strike_price :=
      pairsOf_rel (List.sorted_insertionSort strikeAsc _) p hp
    show (p.2.strike_price - p.1.strike_price) * NIFTY_LOTSIZE =
      |p.2.strike_price - p.1.strike_price| * 25
    rw [abs_of_nonneg (sub_nonneg.mpr hle)]
    rfl
  · intro p hp
    have hle : p.2.strike_price ≤ p.1.strike_price :=
      pairsOf_rel (List.sorted_insertionSort strikeDesc _) p hp
    show (p.1.strike_price - p.2.strike_price) * NIFTY_LOTSIZE =
      |p.2.strike_price - p.1.strike_price| * 25
    rw [abs_of_nonpos (sub_nonpos.mpr hle), neg_sub]
    rfl

/-- Witness for C5 on the example chain's single generated pair. -/
theorem C5_scoring_witness :
    ((mkCallEntry 105 100 (mkMarket (some 3) (some (29/10)) (some (31/10))),
        mkCallEntry 110 100 (mkMarket (some 1) (some (9/10)) (some (11/10)))) ∈
      pairsOf (callSorted chainC1 flagsNone)) ∧
    (scoreCall (mkCallEntry 105 100 (mkMarket (some 3) (some (29/10)) (some (31/10))))
        (mkCallEntry 110 100 (mkMarket (some 1) (some (9/10)) (some (11/10))))).spread =
      |(scoreCall (mkCallEntry 105 100 (mkMarket (some 3) (some (29/10)) (some (31/10))))
          (mkCallEntry 110 100 (mkMarket (some 1) (some (9/10)) (some (11/10))))).buy_strike -
        (scoreCall (mkCallEntry 105 100 (mkMarket (some 3) (some (29/10)) (some (31/10))))
          (mkCallEntry 110 100 (mkMarket (some 1) (some (9/10))
            (some (11/10))))).sell_strike| * 25 := by
  have hmem : (mkCallEntry 105 100 (mkMarket (some 3) (some (29/10)) (some (31/10))),
      mkCallEntry 110 100 (mkMarket (some 1) (some (9/10)) (some (11/10)))) ∈
      pairsOf (callSorted chainC1 flagsNone) := by
    norm_num [callSorted, callKeep, pairsOf, chainC1, mkCallEntry, mkMarket, flagsNone,
      strikeAsc, List.insertionSort, List.orderedInsert, List.filter]
  exact ⟨hmem, (C5_scoring chainC1 flagsNone).2.1 _ hmem⟩

/-- Chain whose single spread has the raw breakeven percentage 2.347: spot
100000, call strikes 102346 (LTP 1.0) and 110000 (LTP 0.0). -/
def chainC6 : List Instrument :=
  [mkCallEntry 102346 100000 (mkMarket (some 1) none none),
   mkCallEntry 110000 100000 (mkMarket (some 0) none none)]

/-- C6: the emitted breakeven percentage is the raw percentage truncated (via
floor) to two decimals, never rounded up; on a chain whose raw percentage is
2.347 the emitted value is 2.34 (= 117/50). -/
theorem C6_truncation :
    (∀ a b : Instrument, (scoreCall a b).breakeven_percentage =
      qfloor (|(scoreCall a b).breakeven - a.underlying_spot_price| /
        a.underlying_spot_price * 100 * 100) / 100) ∧
    (∀ a b : Instrument, (scorePut a b).breakeven_percentage =
      qfloor (|(scorePut a b).breakeven - b.underlying_spot_price| /
        b.underlying_spot_price * 100 * 100) / 100) ∧
    bearCallSpreads chainC6 flagsNone =
      [⟨102346, 110000, 191350, 25, 25, 191325, 102347, 117/50, "CE"⟩] := by
  refine ⟨fun a b => rfl, fun a b => rfl, ?_⟩
  norm_num [bearCallSpreads, callScored, callSorted, callKeep, scoreCall, ltpOf, pairsOf,
    mkCallEntry, mkMarket, chainC6, flagsNone, NIFTY_LOTSIZE, qceil, qfloor, strikeAsc,
    List.insertionSort, List.orderedInsert, List.filter,
    floor_cast_eq (2347/10) 234 (by norm_num) (by norm_num)]

/-- C7: with the risk/reward flag set, the output is exactly the filter of the
flag-off output by `max_loss ≤ 3 * max_profit` (evaluated on the rounded
fields), so enabling the flag never increases the result-set size. -/
theorem C7_risk_reward (instruments : List Instrument) (bas srt : Bool) :
    (bearCallSpreads instruments ⟨bas, true, srt⟩ =
        (bearCallSpreads instruments ⟨bas, false, srt⟩).filter rrKeep ∧
      (bearCallSpreads instruments ⟨bas, true, srt⟩).length ≤
        (bearCallSpreads instruments ⟨bas, false, srt⟩).length) ∧
    (bullPutSpreads instruments ⟨bas, true, srt⟩ =
        (bullPutSpreads instruments ⟨bas, false, srt⟩).filter rrKeep ∧
      (bullPutSpreads instruments ⟨bas, true, srt⟩).length ≤
        (bullPutSpreads instruments ⟨bas, false, srt⟩).length) := by
  have hbear : bearCallSpreads instruments ⟨bas, true, srt⟩ =
      (bearCallSpreads instruments ⟨bas, false, srt⟩).filter rrKeep := rfl
  have hbull : bullPutSpreads instruments ⟨bas, true, srt⟩ =
      (bullPutSpreads instruments ⟨bas, false, srt⟩).filter rrKeep := rfl
  refine ⟨⟨hbear, ?_⟩, ⟨hbull, ?_⟩⟩
  · rw [hbear]
    exact List.length_filter_le _ _
  · rw [hbull]
    exact List.length_filter_le _ _

/-- C9: a chain that fails to decode yields exactly the distinguished parse
failure and no spreads; a decoded chain always yields `Except.ok` of the
(possibly empty) spread list, never the failure. -/
theorem C9_parse_failure (params : SpreadParams) :
    bear_call_spread none params = Except.error "Failed to parse JSON" ∧
      bull_put_spread none params = Except.error "Failed to parse JSON" ∧
      (∀ instruments, bear_call_spread (some instruments) params =
        Except.ok (bearCallSpreads instruments params)) ∧
      (∀ instruments, bull_put_spread (some instruments) params =
        Except.ok (bullPutSpreads instruments params)) :=
  ⟨rfl, rfl, fun _ => rfl, fun _ => rfl⟩

/-- Chain with a duplicated strike among four call entries: strikes 105, 105,
110, 120 at spot 100 (LTPs 3, 3, 1, 1). -/
def chainC8 : List Instrument :=
  [mkCallEntry 105 100 (mkMarket (some 3) none none),
   mkCallEntry 105 100 (mkMarket (some 3) none none),
   mkCallEntry 110 100 (mkMarket (some 1) none none),
   mkCallEntry 120 100 (mkMarket (some 1) none none)]

/-- C8 (counterexample): with a duplicated sell strike the flagless output is
not ordered by ascending sell strike with ascending buy strike as tie-break:
the pair (105, 120) of the first duplicate precedes the pair (105, 110) of the
second duplicate. -/
theorem C8_counterexample :
    ¬ (bearCallSpreads chainC8 flagsNone).Pairwise (fun s t =>
      s.sell_strike < t.sell_strike ∨
        (s.sell_strike = t.sell_strike ∧ s.buy_strike ≤ t.buy_strike)) := by
  intro hall
  have hev : bearCallSpreads chainC8 flagsNone =
      [⟨105, 105, 0, 0, 0, 0, 105, 5, "CE"⟩,
       ⟨105, 110, 125, 50, 50, 75, 107, 7, "CE"⟩,
       ⟨105, 120, 375, 50, 50, 325, 107, 7, "CE"⟩,
       ⟨105, 110, 125, 50, 50, 75, 107, 7, "CE"⟩,
       ⟨105, 120, 375, 50, 50, 325, 107, 7, "CE"⟩,
       ⟨110, 120, 250, 0, 0, 250, 110, 10, "CE"⟩] := by
    norm_num [bearCallSpreads, callScored, callSorted, callKeep, scoreCall, ltpOf, pairsOf,
      mkCallEntry, mkMarket, chainC8, flagsNone, NIFTY_LOTSIZE, qceil, qfloor, strikeAsc,
      List.insertionSort, List.orderedInsert, List.filter]
  rw [hev] at hall
  norm_num [List.pairwise_cons] at hall

/-- C8 (amended): with the sort flag set the output is non-increasing in
breakeven percentage and ties keep their generation order (stable sort); with
no flags the output is exactly the generation-order scored list, and that
order is ascending (sell, buy) for calls and descending for puts provided the
filtered strikes are pairwise distinct. -/
theorem C8_ordering (instruments : List Instrument) (bas : Bool) :
    (∀ rr : Bool, (bearCallSpreads instruments ⟨bas, rr, true⟩).Pairwise bpDesc) ∧
      (∀ rr : Bool, (bullPutSpreads instruments ⟨bas, rr, true⟩).Pairwise bpDesc) ∧
      (∀ x y : CreditSpread, [x, y].Sublist (callScored instruments ⟨bas, false, true⟩) →
        x.breakeven_percentage = y.breakeven_percentage →
        [x, y].Sublist (bearCallSpreads instruments ⟨bas, false, true⟩)) ∧
      (∀ x y : CreditSpread, [x, y].Sublist (putScored instruments ⟨bas, false, true⟩) →
        x.breakeven_percentage = y.breakeven_percentage →
        [x, y].Sublist (bullPutSpreads instruments ⟨bas, false, true⟩)) ∧
      (bearCallSpreads instruments ⟨bas, false, false⟩ =
        callScored instruments ⟨bas, false, false⟩) ∧
      (bullPutSpreads instruments ⟨bas, false, false⟩ =
        putScored instruments ⟨bas, false, false⟩) ∧
      (((instruments.filter (callKeep ⟨bas, false, false⟩)).map Instrument.strike_price).Nodup →
        (bearCallSpreads instruments ⟨bas, false, false⟩).Pairwise (fun s t =>
          s.sell_strike < t.sell_strike ∨
            (s.sell_strike = t.sell_strike ∧ s.buy_strike < t.buy_strike))) ∧
      (((instruments.filter (putKeep ⟨bas, false, false⟩)).map Instrument.strike_price).Nodup →
        (bullPutSpreads instruments ⟨bas, false, false⟩).Pairwise (fun s t =>
          t.sell_strike < s.sell_strike ∨
            (s.sell_strike = t.sell_strike ∧ t.buy_strike < s.buy_strike))) := by
  refine ⟨?_, ?_, ?_, ?_, rfl, rfl, ?_, ?_⟩
  · intro rr
    cases rr with
    | false => exact List.sorted_insertionSort bpDesc _
    | true => exact (List.sorted_insertionSort bpDesc _).filter rrKeep
  · intro rr
    cases rr with
    | false => exact List.sorted_insertionSort bpDesc _
    | true => exact (List.sorted_insertionSort bpDesc _).filter rrKeep
  · intro x y hsub heq
    exact List.pair_sublist_insertionSort (le_of_eq heq.symm) hsub
  · intro x y hsub heq
    exact List.pair_sublist_insertionSort (le_of_eq heq.symm) hsub
  · intro hnd
    have hpl := pairsOf_pairwise (callSorted_pairwise_lt hnd)
    exact List.pairwise_map.mpr (hpl.imp (fun h =>
      h.imp (fun h1 => h1) (fun h2 => ⟨congrArg Instrument.strike_price h2.1, h2.2⟩)))
  · intro hnd
    have hpl := pairsOf_pairwise (putSorted_pairwise_gt hnd)
    exact List.pairwise_map.mpr (hpl.imp (fun h =>
      h.imp (fun h1 => h1) (fun h2 => ⟨congrArg Instrument.strike_price h2.1, h2.2⟩)))

/-- Witness for C8 (amended): a tied pair of the duplicated-strike chain stays
in generation order under the breakeven sort, and on the example chain with
distinct strikes the flagless output is lexicographically ordered. -/
theorem C8_ordering_witness :
    ([(⟨105, 110, 125, 50, 50, 75, 107, 7, "CE"⟩ : CreditSpread),
        ⟨105, 120, 375, 50, 50, 325, 107, 7, "CE"⟩].Sublist
          (callScored chainC8 ⟨false, false, true⟩) ∧
      [(⟨105, 110, 125, 50, 50, 75, 107, 7, "CE"⟩ : CreditSpread),
        ⟨105, 120, 375, 50, 50, 325, 107, 7, "CE"⟩].Sublist
          (bearCallSpreads chainC8 ⟨false, false, true⟩)) ∧
    (((chainC1.filter (callKeep ⟨false, false, false⟩)).map Instrument.strike_price).Nodup ∧
      (bearCallSpreads chainC1 ⟨false, false, false⟩).Pairwise (fun s t =>
        s.sell_strike < t.sell_strike ∨
          (s.sell_strike = t.sell_strike ∧ s.buy_strike < t.buy_strike))) := by
  have hsc : callScored chainC8 ⟨false, false, true⟩ =
      [⟨105, 105, 0, 0, 0, 0, 105, 5, "CE"⟩,
       ⟨105, 110, 125, 50, 50, 75, 107, 7, "CE"⟩,
       ⟨105, 120, 375, 50, 50, 325, 107, 7, "CE"⟩,
       ⟨105, 110, 125, 50, 50, 75, 107, 7, "CE"⟩,
       ⟨105, 120, 375, 50, 50, 325, 107, 7, "CE"⟩,
       ⟨110, 120, 250, 0, 0, 250, 110, 10, "CE"⟩] := by
    norm_num [callScored, callSorted, callKeep, scoreCall, ltpOf, pairsOf,
      mkCallEntry, mkMarket, chainC8, NIFTY_LOTSIZE, qceil, qfloor, strikeAsc,
      List.insertionSort, List.orderedInsert, List.filter]
  have hsub : [(⟨105, 110, 125, 50, 50, 75, 107, 7, "CE"⟩ : CreditSpread),
      ⟨105, 120, 375, 50, 50, 325, 107, 7, "CE"⟩].Sublist
        (callScored chainC8 ⟨false, false, true⟩) := by
    rw [hsc]
    exact List.Sublist.cons _ (List.Sublist.cons₂ _ (List.Sublist.cons₂ _
      (List.nil_sublist _)))
  have hnd : ((chainC1.filter (callKeep ⟨false, false, false⟩)).map
      Instrument.strike_price).Nodup := by
    norm_num [callKeep, chainC1, mkCallEntry, mkMarket, List.filter]
  exact ⟨⟨hsub, (C8_ordering chainC8 false).2.2.1 _ _ hsub rfl⟩,
    ⟨hnd, (C8_ordering chainC1 false).2.2.2.2.2.2.1 hnd⟩⟩
